import Mathlib

/-!
A shallow embedding of the rs_ingester data-warehouse ingestion service:
the redshift adapter (COPY requests, load-status inspection, string escaping),
the backend DDL layer (`ApplyOperations`, `CreateTable`, version introspection),
the schema migrator, and the load-worker dispatch loop.  Database state is made
explicit (rows of `infra.table_version`, the pending-tsv queue, the force-load
set, the executed-DDL log); Go panics are modelled with an explicit result type.
-/

namespace RSIngester

/-! ## Characters and Go-style string helpers -/

/-- The single-quote character. -/
def squoteChar : Char := Char.ofNat 39

/-- The double-quote character. -/
def dquoteChar : Char := Char.ofNat 34

/-- The backslash character. -/
def bslashChar : Char := Char.ofNat 92

/-- The NUL character, Go `'\000'`. -/
def nulChar : Char := Char.ofNat 0

/-- One single quote, as a string. -/
def squote : String := String.mk [squoteChar]

/-- One backslash, as a string. -/
def bslash : String := String.mk [bslashChar]

/-- Go `strings.Replace(s, old, new, -1)` restricted to a single-character
pattern `old` (the only form the source uses): every occurrence of `old`
is replaced by `new`, scanning left to right. -/
def goReplaceChar : List Char → Char → List Char → List Char
  | [], _, _ => []
  | c :: rest, old, new =>
    (if c = old then new else [c]) ++ goReplaceChar rest old new

/-- Go `strings.IndexRune(s, c) != -1`: whether a character occurs in `s`. -/
def containsChar (s : String) (c : Char) : Bool :=
  s.data.any (fun x => x = c)

/-- Go `strings.LastIndex` restricted to a single-character needle: the index
of the last occurrence, if any. -/
def goLastIndexOfChar : List Char → Char → Option Nat
  | [], _ => none
  | x :: rest, c =>
    match goLastIndexOfChar rest c with
    | some i => some (i + 1)
    | none => if x = c then some 0 else none

/-- `pq.QuoteIdentifier`: wrap in double quotes, doubling any embedded
double quote (external library behaviour, as used by the source). -/
def QuoteIdentifier (name : String) : String :=
  String.mk (dquoteChar :: goReplaceChar name.data dquoteChar [dquoteChar, dquoteChar] ++ [dquoteChar])

/-- redshift.EscapePGString, translated from the source:
`a := strings.Replace(s, backslash, doubled backslash, -1)` and then
`quote + strings.Replace(a, quote, doubled quote, -1) + quote`. -/
def EscapePGString (s : String) : String :=
  let a : List Char := goReplaceChar s.data bslashChar [bslashChar, bslashChar]
  String.mk (squoteChar :: goReplaceChar a squoteChar [squoteChar, squoteChar] ++ [squoteChar])

/-- Spec-side single-pass escape of one character: a backslash doubles,
a single quote doubles, anything else is kept.  Used only to compare
`EscapePGString` against the specification wording. -/
def escapeCharSpec (c : Char) : List Char :=
  if c = bslashChar then [bslashChar, bslashChar]
  else if c = squoteChar then [squoteChar, squoteChar]
  else [c]

/-- Spec-side escape of a whole character list. -/
def escapeBody : List Char → List Char
  | [] => []
  | c :: rest => escapeCharSpec c ++ escapeBody rest

/-- Spec-side statement of the escaping contract: every backslash doubled,
every single quote doubled, the result wrapped in single quotes. -/
def escapePGStringSpec (s : String) : String :=
  String.mk (squoteChar :: escapeBody s.data ++ [squoteChar])

/-! ## COPY requests (redshift package) -/

/-- The fixed manifest COPY options from the source (`manifestImportOptions`). -/
def manifestImportOptions : String :=
  String.intercalate " "
    ["removequotes",
     "delimiter " ++ squote ++ bslash ++ "t" ++ squote,
     "gzip",
     "escape",
     "truncatecolumns",
     "roundec",
     "fillrecord",
     "compupdate on",
     "emptyasnull",
     "acceptinvchars " ++ squote ++ "?" ++ squote,
     "manifest",
     "trimblanks;"]

/-- `fmt.Sprintf(copyCommand, table, from, creds, options)` with the source's
format string `COPY %s FROM %s WITH CREDENTIALS '%s' %s`. -/
def copyCommandText (table fromPart creds opts : String) : String :=
  "COPY " ++ table ++ " FROM " ++ fromPart ++ " WITH CREDENTIALS " ++
    squote ++ creds ++ squote ++ " " ++ opts

/-- redshift.ManifestRowCopyRequest (the `BuiltOn` timestamp is irrelevant
to control flow and omitted). -/
structure ManifestRowCopyRequest where
  name : String
  manifestURL : String
  credentials : String
deriving DecidableEq, Repr

/-- ManifestRowCopyRequest.TxExec: reject requests whose manifest URL or table
name contains a NUL byte before building any SQL; otherwise the single COPY
statement is executed in the transaction (returned as `Except.ok query`). -/
def ManifestRowCopyRequest.txExec (r : ManifestRowCopyRequest) : Except String String :=
  if containsChar r.manifestURL nulChar || containsChar r.name nulChar then
    Except.error "ManifestURL or name contain a null byte!"
  else
    Except.ok (copyCommandText (QuoteIdentifier r.name) (EscapePGString r.manifestURL)
      r.credentials manifestImportOptions)

/-! ## Load-status inspection (redshift.CheckLoadStatus) -/

/-- scoop_protocol load statuses. -/
inductive LoadStatus where
  | inProgress
  | complete
  | failed
  | notFound
deriving DecidableEq, Repr

/-- The warehouse system views consulted by CheckLoadStatus, already filtered
to the rows whose query text matches the COPY command for the manifest URL
under inspection (the SQL `ILIKE` filter):
`stvRecents` holds the `status` column of matching STV_RECENTS rows,
`stlQuery` holds `(xid, aborted)` of matching STL_QUERY rows in scan order,
`stlUtilityText` holds `(xid, text)` rows, `stlUndone` holds
`xact_id_undone` values. -/
structure SysViews where
  stvRecents : List String
  stlQuery : List (Int × Int)
  stlUtilityText : List (Int × String)
  stlUndone : List Int
deriving DecidableEq, Repr

/-- redshift.CheckLoadStatus, translated query by query: (1) count STV_RECENTS
rows with status other than Done; (2) scan the first STL_QUERY row (no row is
`sql.ErrNoRows`); (3) count COMMIT rows in STL_UTILITYTEXT for the xid;
(4) count STL_UNDONE rows for the xid; (5) otherwise assume in progress. -/
def CheckLoadStatus (v : SysViews) : LoadStatus :=
  if (v.stvRecents.filter (fun st => st ≠ "Done")).length ≠ 0 then LoadStatus.inProgress
  else
    match v.stlQuery.head? with
    | none => LoadStatus.notFound
    | some (xid, aborted) =>
      if aborted = 1 then LoadStatus.failed
      else if (v.stlUtilityText.filter (fun p => p.1 = xid ∧ p.2 = "COMMIT")).length ≠ 0 then
        LoadStatus.complete
      else if (v.stlUndone.filter (fun x => x = xid)).length ≠ 0 then LoadStatus.failed
      else LoadStatus.inProgress

/-! ## Schema operations (scoop_protocol.Operation and the backend package) -/

/-- scoop_protocol operation actions; `other` covers any action string outside
the six the backend recognises (the source's `default` switch arm). -/
inductive Action where
  | ADD
  | DELETE
  | RENAME
  | REQUEST_DROP_EVENT
  | DROP_EVENT
  | CANCEL_DROP_EVENT
  | other (s : String)
deriving DecidableEq, Repr

/-- Go `map[string]string` as an association list (keys unique in practice). -/
abbrev MetaMap := List (String × String)

/-- Go map read `m[k]`: the zero value (empty string) when the key is absent. -/
def metaGet (m : MetaMap) (k : String) : String :=
  (m.lookup k).getD ""

/-- Go comma-ok map read `_, ok := m[k]`. -/
def metaHas (m : MetaMap) (k : String) : Bool :=
  (m.lookup k).isSome

/-- scoop_protocol.Operation: an action, a column name and action metadata. -/
structure Operation where
  action : Action
  name : String
  actionMetadata : MetaMap
deriving DecidableEq, Repr

/-- The fixed logical-type translation map (`transformerTypeMap`). -/
def transformerTypeMap : MetaMap :=
  [("ipCity", "varchar(64)"),
   ("ipCountry", "varchar(2)"),
   ("ipRegion", "varchar(64)"),
   ("ipAsn", "varchar(128)"),
   ("ipAsnInteger", "int"),
   ("f@timestamp", "datetime"),
   ("userIDWithMapping", "bigint")]

/-- Result of running a piece of Go code that can panic. -/
inductive GoResult (α : Type) where
  | ok (val : α)
  | panicked (msg : String)
deriving DecidableEq, Repr

/-- The Go runtime message for an out-of-range string index. -/
def indexOutOfRangeMsg : String := "runtime error: index out of range"

/-- backend.parseFunctionalType, translated byte for byte: after checking only
`len(s) > 0` and `s[0] == 'f'`, the source reads `s[1]`, which panics when the
string has length one; on an `f@` prefix it looks up the slice of `s` up to
the last `@` in the transformer map. -/
def parseFunctionalType (s : List Char) : GoResult (String × Bool) :=
  match s with
  | [] => GoResult.ok ("", false)
  | c0 :: rest =>
    if c0 = 'f' then
      match rest.head? with
      | none => GoResult.panicked indexOutOfRangeMsg
      | some c1 =>
        if c1 = '@' then
          let idx := (goLastIndexOfChar (c0 :: rest) '@').getD 0
          match transformerTypeMap.lookup (String.mk ((c0 :: rest).take idx)) with
          | some t => GoResult.ok (t, true)
          | none => GoResult.ok ("", false)
        else GoResult.ok ("", false)
    else GoResult.ok ("", false)

/-- migrationStep.getCreationForm: translate the column type through the fixed
map, else through the functional-type parser (whose panic propagates), else
pass it through verbatim; append column options when longer than one
character; produce `"<quoted name> <type><options>"`. -/
def getCreationForm (m : Operation) : GoResult String :=
  let ct := metaGet m.actionMetadata "column_type"
  match parseFunctionalType ct.data with
  | GoResult.panicked msg => GoResult.panicked msg
  | GoResult.ok (funcType, isFunc) =>
    let colType :=
      match transformerTypeMap.lookup ct with
      | some tranType => tranType
      | none => if isFunc then funcType else ct
    let copts := metaGet m.actionMetadata "column_options"
    let maybeColOpts := if copts.length > 1 then copts else ""
    GoResult.ok (QuoteIdentifier m.name ++ " " ++ colType ++ maybeColOpts)

/-! ## Warehouse state and the backend DDL operations -/

/-- The durable warehouse state the backend mutates: the rows of
`infra.table_version` as `(name, version)` pairs (the `ts` column plays no
role in control flow), plus a log of the SQL statements executed by committed
transactions. -/
structure WarehouseState where
  tableVersionRows : List (String × Int)
  executedDDL : List String
deriving DecidableEq, Repr

/-- `SELECT MAX(version) FROM infra.table_version WHERE name = $1 GROUP BY
name`: `none` when the table has no row (`sql.ErrNoRows`). -/
def maxVersion : List (String × Int) → String → Option Int
  | [], _ => none
  | (n, ver) :: rest, table =>
    let m := maxVersion rest table
    if n = table then
      match m with
      | none => some ver
      | some x => some (max ver x)
    else m

/-- RedshiftBackend.TableVersions restricted to one table: the map built from
`SELECT name, MAX(version) FROM infra.table_version GROUP BY name`, read at
`table`. -/
def TableVersions (s : WarehouseState) (table : String) : Option Int :=
  maxVersion s.tableVersionRows table

/-- The error message of expectVersion when the table has no version row. -/
def expectAbsentMsg (version : Int) (table : String) : String :=
  "expected version " ++ toString version ++ " for table " ++ table ++
    ", but table doesn" ++ squote ++ "t exist in infra.table_version"

/-- The error message of expectVersion on a version mismatch. -/
def expectMismatchMsg (version : Int) (table : String) (readVersion : Int) : String :=
  "expected version " ++ toString version ++ " for table " ++ table ++
    ", but got version " ++ toString readVersion ++ " in infra.table_version"

/-- backend.expectVersion: read `MAX(version)` for the table; no row passes
only when the expected version is `-1`; a row passes only when it equals the
expected version.  `none` is success, `some` is the returned error. -/
def expectVersion (rows : List (String × Int)) (table : String) (version : Int) :
    Option String :=
  match maxVersion rows table with
  | none =>
    if version = -1 then none
    else some (expectAbsentMsg version table)
  | some readVersion =>
    if readVersion ≠ version then some (expectMismatchMsg version table readVersion)
    else none

/-- backend.applyOperation: the DDL statements one operation executes inside
the transaction (`Except.ok`), the error for an unrecognised action, or a
panic escaping from `getCreationForm`. -/
def applyOperation (op : Operation) (table : String) :
    GoResult (Except String (List String)) :=
  match op.action with
  | Action.ADD =>
    match getCreationForm op with
    | GoResult.panicked msg => GoResult.panicked msg
    | GoResult.ok form =>
      GoResult.ok (Except.ok
        ["ALTER TABLE " ++ QuoteIdentifier table ++ " ADD COLUMN " ++ form])
  | Action.DELETE =>
    GoResult.ok (Except.ok
      ["ALTER TABLE " ++ QuoteIdentifier table ++ " DROP COLUMN " ++
        QuoteIdentifier op.name ++ " CASCADE"])
  | Action.RENAME =>
    GoResult.ok (Except.ok
      ["ALTER TABLE " ++ QuoteIdentifier table ++ " RENAME COLUMN " ++
        QuoteIdentifier op.name ++ " TO " ++
        QuoteIdentifier (metaGet op.actionMetadata "new_outbound")])
  | Action.REQUEST_DROP_EVENT => GoResult.ok (Except.ok [])
  | Action.DROP_EVENT => GoResult.ok (Except.ok [])
  | Action.CANCEL_DROP_EVENT => GoResult.ok (Except.ok [])
  | Action.other a => GoResult.ok (Except.error ("Unexpected operation action: " ++ a))

/-- The loop of ApplyOperations over its operation list: statements of each
operation in list order, stopping at the first error or panic. -/
def applyOpsList (ops : List Operation) (table : String) :
    GoResult (Except String (List String)) :=
  match ops with
  | [] => GoResult.ok (Except.ok [])
  | op :: rest =>
    match applyOperation op table with
    | GoResult.panicked m => GoResult.panicked m
    | GoResult.ok (Except.error e) => GoResult.ok (Except.error e)
    | GoResult.ok (Except.ok stmts) =>
      match applyOpsList rest table with
      | GoResult.panicked m => GoResult.panicked m
      | GoResult.ok (Except.error e) => GoResult.ok (Except.error e)
      | GoResult.ok (Except.ok restStmts) => GoResult.ok (Except.ok (stmts ++ restStmts))

/-- The `set statement_timeout` statement with its bound argument. -/
def setTimeoutStmt (timeoutMs : Int) : String :=
  "set statement_timeout to " ++ toString timeoutMs

/-- The version-row insert statement (arguments bound to the table and the
target version; `ts` is `GETDATE()`). -/
def insertVersionStmt : String :=
  "INSERT INTO infra.table_version (name, version, ts) VALUES ($1, $2, GETDATE())"

/-- RedshiftBackend.ApplyOperations: inside one transaction, assert the
current version is `targetVersion - 1`, set the statement timeout, apply the
operations in order, insert the new version row.  A transaction error rolls
everything back, so the returned pair is the untouched input state with the
error; success commits the new row and the executed statements. -/
def ApplyOperations (s : WarehouseState) (table : String) (ops : List Operation)
    (targetVersion : Int) (timeoutMs : Int) :
    GoResult (WarehouseState × Option String) :=
  match expectVersion s.tableVersionRows table (targetVersion - 1) with
  | some e => GoResult.ok (s, some e)
  | none =>
    match applyOpsList ops table with
    | GoResult.panicked m => GoResult.panicked m
    | GoResult.ok (Except.error e) => GoResult.ok (s, some e)
    | GoResult.ok (Except.ok stmts) =>
      GoResult.ok
        ({ tableVersionRows := s.tableVersionRows ++ [(table, targetVersion)],
           executedDDL := s.executedDDL ++
             setTimeoutStmt timeoutMs :: (stmts ++ [insertVersionStmt]) }, none)

/-- Outcome of backend.buildNewTable's validation loop. -/
inductive BuildResult where
  | err (msg : String)
  | dropEvent
  | table
deriving DecidableEq, Repr

/-- backend.buildNewTable's loop, in source order: the first DROP_EVENT makes
the whole call a nil (no-op) table; before that, any non-ADD action or an ADD
missing `column_options` or `column_type` metadata is an error. -/
def buildNewTableCheck : List Operation → BuildResult
  | [] => BuildResult.table
  | op :: rest =>
    if op.action = Action.DROP_EVENT then BuildResult.dropEvent
    else if op.action ≠ Action.ADD then
      BuildResult.err "newTable must be made out of action=add operations"
    else if !(metaHas op.actionMetadata "column_options") ||
            !(metaHas op.actionMetadata "column_type") then
      BuildResult.err
        "newTable must have actionmetadata including column_options and column_type"
    else buildNewTableCheck rest

/-- The creation forms of all operations of a new table, first panic
propagated (newTable.getColumnCreationString calls getCreationForm per op). -/
def creationForms : List Operation → GoResult (List String)
  | [] => GoResult.ok []
  | op :: rest =>
    match getCreationForm op with
    | GoResult.panicked m => GoResult.panicked m
    | GoResult.ok f =>
      match creationForms rest with
      | GoResult.panicked m => GoResult.panicked m
      | GoResult.ok fs => GoResult.ok (f :: fs)

/-- RedshiftBackend.CreateTable: validate the operations; a validation error
or the DROP_EVENT sentinel returns without touching the warehouse (the
sentinel as a success); otherwise one transaction executes the CREATE TABLE
statement and inserts the initial version row. -/
def CreateTable (s : WarehouseState) (table : String) (ops : List Operation)
    (version : Int) : GoResult (WarehouseState × Option String) :=
  match buildNewTableCheck ops with
  | BuildResult.err e => GoResult.ok (s, some e)
  | BuildResult.dropEvent => GoResult.ok (s, none)
  | BuildResult.table =>
    match creationForms ops with
    | GoResult.panicked m => GoResult.panicked m
    | GoResult.ok forms =>
      let q := "CREATE TABLE " ++ QuoteIdentifier table ++
        "(" ++ String.intercalate "," forms ++ ");"
      GoResult.ok
        ({ tableVersionRows := s.tableVersionRows ++ [(table, version)],
           executedDDL := s.executedDDL ++ [q, insertVersionStmt] }, none)

/-! ## Version cache and metadata store state

The `versions` and `metadata` packages are declared and called by the sources
under verification but their own files are not part of this tree; their state
is modelled from the spec. -/

/-- Modelled from the spec: the versions package's GetterSetter, the in-memory
mirror of `(table → current version)`; `Get` is map lookup, `Set` is map
update.  (The package itself is absent from the sources.) -/
def cacheGet (cache : List (String × Int)) (table : String) : Option Int :=
  cache.lookup table

/-- Modelled from the spec: the version cache's `Set` — replace the binding
for the table, inserting it if absent. -/
def cacheSet (cache : List (String × Int)) (table : String) (v : Int) :
    List (String × Int) :=
  match cache with
  | [] => [(table, v)]
  | (t, x) :: rest =>
    if t = table then (t, v) :: rest else (t, x) :: cacheSet rest table v

/-- Migrator configuration: the flag-derived fields of the Migrator struct. -/
structure MigratorConfig where
  waitProcessorPeriod : Nat
  offpeakStartHour : Int
  offpeakDurationHours : Int
  onpeakMigrationTimeoutMs : Int
  offpeakMigrationTimeoutMs : Int
deriving DecidableEq, Repr

/-- The mutable world the migrator loop observes and updates:
`migrationStarted` is the in-process quiescence map keyed by
`(table, targetVersion)` with the recorded start instant; `cache` is the
version cache; `tsv` is the metadata store's pending-fragment queue as
`(table, version)` entries (modelled from the spec's `tsv` table);
`forceLoadTables` is the metadata store's `force_load` set (modelled from the
spec); `warehouse` is the redshift state; `logsTables` is the set of tables
existing in the `logs` schema, the relation `TableExists` probes. -/
structure MigratorState where
  migrationStarted : List ((String × Int) × Nat)
  cache : List (String × Int)
  tsv : List (String × Int)
  forceLoadTables : List String
  warehouse : WarehouseState
  logsTables : List String
deriving DecidableEq, Repr

/-- Modelled from the spec: metadata.TSVVersionExists — whether any pending
`tsv` row exists for the `(table, version)` pair. -/
def tsvVersionExists (st : MigratorState) (table : String) (version : Int) : Bool :=
  st.tsv.contains (table, version)

/-- Modelled from the spec: metadata.ForceLoad — insert the table into
`force_load` if absent. -/
def forceLoadInsert (st : MigratorState) (table : String) : MigratorState :=
  if st.forceLoadTables.contains table then st
  else { st with forceLoadTables := st.forceLoadTables ++ [table] }

/-- Modelled from the spec: metadata.IsForceLoadRequested — whether the table
has a `force_load` row. -/
def isForceLoadRequested (st : MigratorState) (table : String) : Bool :=
  st.forceLoadTables.contains table

/-! ## The migrator (migrator package) -/

/-- Migrator.isOldVersionCleared: true when no tsv rows remain for the table
at the version; otherwise inject a force load for the table and answer false. -/
def isOldVersionCleared (st : MigratorState) (table : String) (version : Int) :
    Bool × MigratorState :=
  if tsvVersionExists st table version then (false, forceLoadInsert st table)
  else (true, st)

/-- The timeout chosen inside Migrator.migrate: the on-peak timeout when the
migration is forced, the off-peak one otherwise. -/
def migrationTimeoutMs (cfg : MigratorConfig) (isForced : Bool) : Int :=
  if isForced then cfg.onpeakMigrationTimeoutMs else cfg.offpeakMigrationTimeoutMs

/-- Migrator.migrate on the happy path of its external fetches (`ops` is the
successful GetMigration result, `now` the current instant).  A missing table
is created; an existing table goes through the quiescence protocol: record
the start instant on first observation, do nothing before
`waitProcessorPeriod` has elapsed, then require the previous version's tsv
queue to be clear (forcing a load when it is not) before applying the DDL;
the successful branch of either path sets the version cache. -/
def migrate (cfg : MigratorConfig) (st : MigratorState) (now : Nat) (table : String)
    (toVersion : Int) (isForced : Bool) (ops : List Operation) :
    GoResult (MigratorState × Option String) :=
  if st.logsTables.contains table then
    match st.migrationStarted.lookup (table, toVersion) with
    | none =>
      GoResult.ok
        ({ st with migrationStarted := st.migrationStarted ++ [((table, toVersion), now)] }, none)
    | some timeMigrationStarted =>
      if now - timeMigrationStarted < cfg.waitProcessorPeriod then
        GoResult.ok (st, none)
      else
        match isOldVersionCleared st table (toVersion - 1) with
        | (false, st2) => GoResult.ok (st2, none)
        | (true, st2) =>
          match ApplyOperations st2.warehouse table ops toVersion
              (migrationTimeoutMs cfg isForced) with
          | GoResult.panicked m => GoResult.panicked m
          | GoResult.ok (w2, some e) =>
            GoResult.ok ({ st2 with warehouse := w2 },
              some ("Error applying operations to " ++ table ++ ": " ++ e))
          | GoResult.ok (w2, none) =>
            GoResult.ok
              ({ st2 with warehouse := w2, cache := cacheSet st2.cache table toVersion }, none)
  else
    match CreateTable st.warehouse table ops toVersion with
    | GoResult.panicked m => GoResult.panicked m
    | GoResult.ok (w2, some e) => GoResult.ok ({ st with warehouse := w2 }, some e)
    | GoResult.ok (w2, none) =>
      GoResult.ok
        ({ st with warehouse := w2, cache := cacheSet st.cache table toVersion }, none)

/-- Migrator.isOffPeakHours, translated branch by branch, with the current
hour made explicit (`time.Now().Hour()` lies in `[0, 24)`). -/
def isOffPeakHours (offpeakStartHour offpeakDurationHours currentHour : Int) : Bool :=
  if offpeakStartHour + offpeakDurationHours ≤ 24 then
    if offpeakStartHour ≤ currentHour ∧
        currentHour < offpeakStartHour + offpeakDurationHours then true
    else false
  else
    if offpeakStartHour ≤ currentHour ∧ currentHour < 24 then true
    else if 0 ≤ currentHour ∧
        currentHour < (offpeakStartHour + offpeakDurationHours) % 24 then true
    else false

/-- Membership in the off-peak window as the spec words it: the hours
`[start, start + duration)` taken modulo 24. -/
def inOffPeakWindow (start duration h : Int) : Prop :=
  (h - start) % 24 < duration

/-- Migrator.incrementVersion on the happy path of TableExists: an existing
table is answered with an error; otherwise ApplyOperations runs with a nil
operation list and the off-peak timeout, and only on its success is the
version cache set.  The `Option String` of the result is what is sent on the
response channel. -/
def incrementVersion (cfg : MigratorConfig) (st : MigratorState) (table : String)
    (version : Int) : GoResult (MigratorState × Option String) :=
  if st.logsTables.contains table then
    GoResult.ok (st, some ("attempted to increment version of table that exists: " ++ table))
  else
    match ApplyOperations st.warehouse table [] version cfg.offpeakMigrationTimeoutMs with
    | GoResult.panicked m => GoResult.panicked m
    | GoResult.ok (w2, some e) => GoResult.ok ({ st with warehouse := w2 }, some e)
    | GoResult.ok (w2, none) =>
      GoResult.ok
        ({ st with warehouse := w2, cache := cacheSet st.cache table version }, none)

/-- The version findAndApplyMigrations computes for an outdated table: 0 when
the version cache has no entry (table creation), else current + 1. -/
def newVersionFor (cache : List (String × Int)) (table : String) : Int :=
  match cacheGet cache table with
  | none => 0
  | some currentVersion => currentVersion + 1

/-- Whether the per-table loop body of findAndApplyMigrations reaches its
`migrate` call, and with which forced flag. -/
inductive MigrateDecision where
  | skip
  | call (isForced : Bool)
deriving DecidableEq, Repr

/-- The per-table control flow of Migrator.findAndApplyMigrations, translated
from the loop body: `forceLoadRequested` starts false; only a positive new
version outside off-peak hours consults the force-load flag (skipping without
it) and then the table lock (skipping when locked); every path that falls
through calls migrate with the flag's current value. -/
def migrationDecision (newVersion : Int) (offPeak forceLoadRequestedProbe tableLockedProbe : Bool) :
    MigrateDecision :=
  if newVersion > 0 then
    if !offPeak then
      if !forceLoadRequestedProbe then MigrateDecision.skip
      else if tableLockedProbe then MigrateDecision.skip
      else MigrateDecision.call true
    else MigrateDecision.call false
  else MigrateDecision.call false

/-! ## The load worker (main package) -/

/-- One member of a manifest, as the worker sees it (`load.Loads`). -/
structure TSVLoad where
  tableName : String
deriving DecidableEq, Repr

/-- The manifest a worker receives on the LoadReady channel. -/
structure LoadManifest where
  uuid : String
  tableName : String
  loads : List TSVLoad
deriving DecidableEq, Repr

/-- The outcome of Loader.LoadManifest, with its retryable classification. -/
inductive LoadResult where
  | success
  | failure (retryable : Bool) (msg : String)
deriving DecidableEq, Repr

/-- The metadata-store calls and statsd counters the worker body emits. -/
inductive WorkerAction where
  | loadError (uuid msg : String)
  | loadDone (uuid : String)
  | statIncr (name : String)
deriving DecidableEq, Repr

/-- The body of loadWorker.Work for one received manifest, translated from the
source: a failure calls LoadError only when retryable and always counts
`manifest_load.failures`, then continues; a success calls LoadDone, counts
`manifest_load.count` and one `tsv_files.<table>.loaded` per member. -/
def workStep (load : LoadManifest) (result : LoadResult) : List WorkerAction :=
  match result with
  | LoadResult.failure retryable msg =>
    (if retryable then [WorkerAction.loadError load.uuid msg] else []) ++
      [WorkerAction.statIncr "manifest_load.failures"]
  | LoadResult.success =>
    [WorkerAction.loadDone load.uuid, WorkerAction.statIncr "manifest_load.count"] ++
      load.loads.map (fun tsv => WorkerAction.statIncr ("tsv_files." ++ tsv.tableName ++ ".loaded"))

/-- An operation buildNewTable accepts without erroring or short-circuiting:
an ADD carrying both `column_options` and `column_type` metadata. -/
def validAddOp (op : Operation) : Prop :=
  op.action = Action.ADD ∧
    metaHas op.actionMetadata "column_options" = true ∧
    metaHas op.actionMetadata "column_type" = true

/-! ## Helper lemmas -/

theorem goReplaceChar_append (a b : List Char) (old : Char) (new : List Char) :
    goReplaceChar (a ++ b) old new = goReplaceChar a old new ++ goReplaceChar b old new := by
  induction a with
  | nil => simp [goReplaceChar]
  | cons c rest ih => simp [goReplaceChar, ih]

theorem goReplaceChar_twice_eq_escapeBody (l : List Char) :
    goReplaceChar (goReplaceChar l bslashChar [bslashChar, bslashChar])
      squoteChar [squoteChar, squoteChar] = escapeBody l := by
  have hbs : bslashChar ≠ squoteChar := by decide
  induction l with
  | nil => simp [goReplaceChar, escapeBody]
  | cons c rest ih =>
    by_cases hb : c = bslashChar
    · subst hb
      simp [goReplaceChar, goReplaceChar_append, escapeBody, escapeCharSpec, ih, hbs]
    · by_cases hq : c = squoteChar
      · subst hq
        simp [goReplaceChar, goReplaceChar_append, escapeBody, escapeCharSpec, ih,
          Ne.symm hbs]
      · simp [goReplaceChar, goReplaceChar_append, escapeBody, escapeCharSpec, ih, hb, hq]

theorem cacheGet_cacheSet_self (cache : List (String × Int)) (table : String) (v : Int) :
    cacheGet (cacheSet cache table v) table = some v := by
  induction cache with
  | nil => simp [cacheGet, cacheSet, List.lookup]
  | cons p rest ih =>
    obtain ⟨t, x⟩ := p
    by_cases h : t = table
    · subst h
      simp [cacheGet, cacheSet, List.lookup]
    · have hbeq : (table == t) = false := by
        simp only [beq_eq_false_iff_ne]
        exact fun e => h e.symm
      simp only [cacheSet, h, if_false]
      simpa [cacheGet, List.lookup, hbeq] using ih

theorem maxVersion_append_self (rows : List (String × Int)) (table : String) (v : Int) :
    maxVersion (rows ++ [(table, v)]) table =
      some (match maxVersion rows table with
            | none => v
            | some x => max x v) := by
  induction rows with
  | nil => simp [maxVersion]
  | cons p rest ih =>
    obtain ⟨n, ver⟩ := p
    by_cases h : n = table
    · subst h
      cases hm : maxVersion rest n with
      | none => simp [maxVersion, ih, hm]
      | some x => simp [maxVersion, ih, hm, max_assoc]
    · simp [maxVersion, h, ih]

theorem expectVersion_none_iff (rows : List (String × Int)) (table : String) (version : Int) :
    expectVersion rows table version = none ↔
      (maxVersion rows table).getD (-1) = version := by
  cases hm : maxVersion rows table with
  | none =>
    by_cases h : version = -1
    · simp [expectVersion, hm, h]
    · simp only [expectVersion, hm, h, if_false, Option.getD_none]
      constructor
      · intro hc
        exact absurd hc (by simp)
      · intro hc
        exact absurd hc.symm h
  | some readVersion =>
    by_cases h : readVersion = version
    · simp [expectVersion, hm, h]
    · simp [expectVersion, hm, h]

theorem buildNewTableCheck_dropEvent (pre suf : List Operation) (dropOp : Operation)
    (hdrop : dropOp.action = Action.DROP_EVENT)
    (hpre : ∀ op ∈ pre, validAddOp op) :
    buildNewTableCheck (pre ++ dropOp :: suf) = BuildResult.dropEvent := by
  induction pre with
  | nil => simp [buildNewTableCheck, hdrop]
  | cons op rest ih =>
    obtain ⟨ha, ho, ht⟩ := hpre op (by simp)
    have hne : op.action ≠ Action.DROP_EVENT := by simp [ha]
    have hadd : ¬(op.action ≠ Action.ADD) := by simp [ha]
    have hmeta : ¬((!(metaHas op.actionMetadata "column_options") ||
        !(metaHas op.actionMetadata "column_type")) = true) := by
      simp [ho, ht]
    simp only [List.cons_append, buildNewTableCheck]
    rw [if_neg hne, if_neg hadd, if_neg hmeta]
    exact ih (fun o ho2 => hpre o (by simp [ho2]))

/-! ## Claim theorems -/

/-- C9: for every string, `EscapePGString` doubles every backslash, then
doubles every single quote, and wraps the result in single quotes (stated
against the independent single-pass specification `escapePGStringSpec`); and
a manifest row-copy request whose manifest URL or table name contains a NUL
byte is rejected with an error before any SQL is produced. -/
theorem c9_escaping_and_nul_rejection (s : String) (r : ManifestRowCopyRequest)
    (h : containsChar r.manifestURL nulChar = true ∨ containsChar r.name nulChar = true) :
    EscapePGString s = escapePGStringSpec s ∧
      r.txExec = Except.error "ManifestURL or name contain a null byte!" := by
  constructor
  · show String.mk (squoteChar ::
        goReplaceChar (goReplaceChar s.data bslashChar [bslashChar, bslashChar])
          squoteChar [squoteChar, squoteChar] ++ [squoteChar]) =
      String.mk (squoteChar :: escapeBody s.data ++ [squoteChar])
    rw [goReplaceChar_twice_eq_escapeBody]
  · unfold ManifestRowCopyRequest.txExec
    rcases h with h | h <;> simp [h]

/-- Witness for C9 at a concrete request carrying a NUL byte in its URL. -/
theorem c9_escaping_and_nul_rejection_witness :
    (containsChar (String.mk [nulChar]) nulChar = true ∨
        containsChar "t" nulChar = true) ∧
      (EscapePGString (String.mk [bslashChar, 'a', squoteChar]) =
          escapePGStringSpec (String.mk [bslashChar, 'a', squoteChar]) ∧
        ManifestRowCopyRequest.txExec ⟨"t", String.mk [nulChar], "creds"⟩ =
          Except.error "ManifestURL or name contain a null byte!") :=
  ⟨Or.inl (by decide),
    c9_escaping_and_nul_rejection (String.mk [bslashChar, 'a', squoteChar])
      ⟨"t", String.mk [nulChar], "creds"⟩ (Or.inl (by decide))⟩

/-- C10: column-type translation is not total — `parseFunctionalType` reads
`s[1]` after checking only `len(s) > 0`, so `getCreationForm` on the
single-character column type `f` hits an index-out-of-range panic instead of
producing a column definition. -/
theorem c10_creation_form_panics_on_f :
    getCreationForm ⟨Action.ADD, "col", [("column_type", "f"), ("column_options", "")]⟩ =
      GoResult.panicked indexOutOfRangeMsg := by
  decide

/-- C7: for every hour in `[0, 24)` and every configured window with start in
`[0, 24)` and duration in `[0, 24]`, `isOffPeakHours` answers true exactly on
the hours of `[start, start + duration)` taken modulo 24, wraparound
included. -/
theorem c7_offpeak_window (start duration h : Int)
    (h1 : 0 ≤ start) (h2 : start < 24) (h3 : 0 ≤ duration) (h4 : duration ≤ 24)
    (h5 : 0 ≤ h) (h6 : h < 24) :
    isOffPeakHours start duration h = true ↔ inOffPeakWindow start duration h := by
  unfold isOffPeakHours inOffPeakWindow
  split_ifs with hA hB hC hD <;> simp <;> omega

/-- Witness for C7 on a window wrapping past midnight: start 22, duration 8,
hour 2. -/
theorem c7_offpeak_window_witness :
    ((0:Int) ≤ 22 ∧ (22:Int) < 24 ∧ (0:Int) ≤ 8 ∧ (8:Int) ≤ 24 ∧
        (0:Int) ≤ 2 ∧ (2:Int) < 24) ∧
      (isOffPeakHours 22 8 2 = true ↔ inOffPeakWindow 22 8 2) :=
  ⟨by norm_num,
    c7_offpeak_window 22 8 2 (by norm_num) (by norm_num) (by norm_num) (by norm_num)
      (by norm_num) (by norm_num)⟩

/-- C4: CheckLoadStatus inspects the system views in a fixed order and
returns the first verdict that fires: a non-Done STV_RECENTS row means in
progress; otherwise a missing STL_QUERY row means not found; otherwise
aborted=1 means failed; otherwise a COMMIT in STL_UTILITYTEXT for the xid
means complete; otherwise an STL_UNDONE row for the xid means failed;
otherwise in progress. -/
theorem c4_check_load_status_order (v : SysViews) :
    ((v.stvRecents.filter (fun st => st ≠ "Done")).length ≠ 0 →
      CheckLoadStatus v = LoadStatus.inProgress) ∧
    ((v.stvRecents.filter (fun st => st ≠ "Done")).length = 0 →
      v.stlQuery.head? = none → CheckLoadStatus v = LoadStatus.notFound) ∧
    (∀ xid, (v.stvRecents.filter (fun st => st ≠ "Done")).length = 0 →
      v.stlQuery.head? = some (xid, 1) → CheckLoadStatus v = LoadStatus.failed) ∧
    (∀ xid aborted, (v.stvRecents.filter (fun st => st ≠ "Done")).length = 0 →
      v.stlQuery.head? = some (xid, aborted) → aborted ≠ 1 →
      (v.stlUtilityText.filter (fun p => p.1 = xid ∧ p.2 = "COMMIT")).length ≠ 0 →
      CheckLoadStatus v = LoadStatus.complete) ∧
    (∀ xid aborted, (v.stvRecents.filter (fun st => st ≠ "Done")).length = 0 →
      v.stlQuery.head? = some (xid, aborted) → aborted ≠ 1 →
      (v.stlUtilityText.filter (fun p => p.1 = xid ∧ p.2 = "COMMIT")).length = 0 →
      (v.stlUndone.filter (fun x => x = xid)).length ≠ 0 →
      CheckLoadStatus v = LoadStatus.failed) ∧
    (∀ xid aborted, (v.stvRecents.filter (fun st => st ≠ "Done")).length = 0 →
      v.stlQuery.head? = some (xid, aborted) → aborted ≠ 1 →
      (v.stlUtilityText.filter (fun p => p.1 = xid ∧ p.2 = "COMMIT")).length = 0 →
      (v.stlUndone.filter (fun x => x = xid)).length = 0 →
      CheckLoadStatus v = LoadStatus.inProgress) := by
  refine ⟨?_, ?_, ?_, ?_, ?_, ?_⟩
  · intro h
    unfold CheckLoadStatus
    rw [if_pos h]
  · intro h hq
    unfold CheckLoadStatus
    rw [if_neg (fun hcon => hcon h)]
    simp only [hq]
  · intro xid h hq
    unfold CheckLoadStatus
    rw [if_neg (fun hcon => hcon h)]
    simp only [hq]
    simp
  · intro xid aborted h hq hab hc
    unfold CheckLoadStatus
    rw [if_neg (fun hcon => hcon h)]
    simp only [hq]
    rw [if_neg hab, if_pos hc]
  · intro xid aborted h hq hab hc hu
    unfold CheckLoadStatus
    rw [if_neg (fun hcon => hcon h)]
    simp only [hq]
    rw [if_neg hab, if_neg (fun hcon => hcon hc), if_pos hu]
  · intro xid aborted h hq hab hc hu
    unfold CheckLoadStatus
    rw [if_neg (fun hcon => hcon h)]
    simp only [hq]
    rw [if_neg hab, if_neg (fun hcon => hcon hc), if_neg (fun hcon => hcon hu)]

/-- Witness for C4: a committed load — empty recents, one unaborted STL_QUERY
row with xid 7, a COMMIT for xid 7 — is reported complete. -/
theorem c4_check_load_status_order_witness :
    CheckLoadStatus ⟨[], [(7, 0)], [(7, "COMMIT")], []⟩ = LoadStatus.complete :=
  (c4_check_load_status_order ⟨[], [(7, 0)], [(7, "COMMIT")], []⟩).2.2.2.1 7 0
    (by decide) (by decide) (by decide) (by decide)

/-- C3: per outdated table, findAndApplyMigrations calls migrate
unconditionally when the computed new version is 0 (version cache has no
entry); with a positive new version it calls migrate unforced during
off-peak hours, and on-peak it calls migrate (forced) exactly when a force
load is requested and the table is not locked, skipping the tick otherwise;
the forced flag selects the on-peak migration timeout. -/
theorem c3_migration_gate (v : Int) (offPeak flr locked : Bool) (cfg : MigratorConfig)
    (cache : List (String × Int)) (table : String) :
    (cacheGet cache table = none → newVersionFor cache table = 0) ∧
    (v = 0 → migrationDecision v offPeak flr locked = MigrateDecision.call false) ∧
    (v > 0 → offPeak = true →
      migrationDecision v offPeak flr locked = MigrateDecision.call false) ∧
    (v > 0 → offPeak = false →
      (migrationDecision v offPeak flr locked = MigrateDecision.call true ↔
        flr = true ∧ locked = false) ∧
      (migrationDecision v offPeak flr locked = MigrateDecision.skip ↔
        ¬(flr = true ∧ locked = false))) ∧
    migrationTimeoutMs cfg true = cfg.onpeakMigrationTimeoutMs ∧
    migrationTimeoutMs cfg false = cfg.offpeakMigrationTimeoutMs := by
  refine ⟨?_, ?_, ?_, ?_, rfl, rfl⟩
  · intro h
    simp [newVersionFor, h]
  · intro h
    simp [migrationDecision, h]
  · intro hv h
    simp [migrationDecision, hv, h]
  · intro hv h
    subst h
    cases flr <;> cases locked <;> simp [migrationDecision, hv]

/-- Witness for C3: on-peak, force load requested, table unlocked — migrate
is called forced. -/
theorem c3_migration_gate_witness :
    ((1:Int) > 0) ∧
      migrationDecision 1 false true false = MigrateDecision.call true :=
  ⟨by norm_num,
    (((c3_migration_gate 1 false true false ⟨1, 3, 8, 5, 7⟩ [] "t").2.2.2.1
        (by norm_num) rfl).1).mpr ⟨rfl, rfl⟩⟩

/-- C6: for each manifest a load worker receives, a successful load emits
LoadDone, the manifest_load.count counter and one per-member
tsv_files.<table>.loaded counter; a failed load emits LoadError exactly when
the error is retryable, always counts manifest_load.failures, and never
emits LoadDone or LoadError on a non-retryable failure (the manifest is left
untouched). -/
theorem c6_worker_dispatch (load : LoadManifest) (result : LoadResult) :
    (result = LoadResult.success →
      WorkerAction.loadDone load.uuid ∈ workStep load result ∧
      WorkerAction.statIncr "manifest_load.count" ∈ workStep load result ∧
      ∀ tsv ∈ load.loads,
        WorkerAction.statIncr ("tsv_files." ++ tsv.tableName ++ ".loaded") ∈
          workStep load result) ∧
    (∀ r msg, result = LoadResult.failure r msg →
      ((WorkerAction.loadError load.uuid msg ∈ workStep load result) ↔ r = true) ∧
      WorkerAction.statIncr "manifest_load.failures" ∈ workStep load result ∧
      WorkerAction.loadDone load.uuid ∉ workStep load result ∧
      (r = false → workStep load result = [WorkerAction.statIncr "manifest_load.failures"])) := by
  constructor
  · intro h
    subst h
    refine ⟨by simp [workStep], by simp [workStep], ?_⟩
    intro tsv htsv
    simp only [workStep]
    exact List.mem_append.mpr (Or.inr (List.mem_map.mpr ⟨tsv, htsv, rfl⟩))
  · intro r msg h
    subst h
    cases r <;> simp [workStep]

/-- Witness for C6: a retryable failure on a concrete manifest emits
LoadError and the failures counter and no LoadDone. -/
theorem c6_worker_dispatch_witness :
    ((WorkerAction.loadError "u1" "boom" ∈
        workStep ⟨"u1", "t", [⟨"t"⟩]⟩ (LoadResult.failure true "boom")) ↔ true = true) ∧
      WorkerAction.statIncr "manifest_load.failures" ∈
        workStep ⟨"u1", "t", [⟨"t"⟩]⟩ (LoadResult.failure true "boom") ∧
      WorkerAction.loadDone "u1" ∉
        workStep ⟨"u1", "t", [⟨"t"⟩]⟩ (LoadResult.failure true "boom") ∧
      (true = false → workStep ⟨"u1", "t", [⟨"t"⟩]⟩ (LoadResult.failure true "boom") =
        [WorkerAction.statIncr "manifest_load.failures"]) :=
  (c6_worker_dispatch ⟨"u1", "t", [⟨"t"⟩]⟩ (LoadResult.failure true "boom")).2
    true "boom" rfl

/-- C2: for an existing table, migrate enforces quiescence: the first call
for a `(table, to)` pair records the current time and returns without DDL;
later calls return without DDL while less than waitProcessorPeriod has
elapsed; once elapsed, isOldVersionCleared answers true exactly when no tsv
rows remain at `to - 1`, and when rows remain it issues a ForceLoad and
migrate again returns without DDL; only after it answers true is
ApplyOperations invoked, and on its success the version cache is set to
`to`. -/
theorem c2_migrate_quiescence (cfg : MigratorConfig) (st : MigratorState) (now : Nat)
    (table : String) (toVersion : Int) (isForced : Bool) (ops : List Operation)
    (hex : st.logsTables.contains table = true) :
    (∀ ver, (isOldVersionCleared st table ver).1 = true ↔
      tsvVersionExists st table ver = false) ∧
    (st.migrationStarted.lookup (table, toVersion) = none →
      migrate cfg st now table toVersion isForced ops =
        GoResult.ok ({ st with migrationStarted :=
          st.migrationStarted ++ [((table, toVersion), now)] }, none)) ∧
    (∀ t0, st.migrationStarted.lookup (table, toVersion) = some t0 →
      now - t0 < cfg.waitProcessorPeriod →
      migrate cfg st now table toVersion isForced ops = GoResult.ok (st, none)) ∧
    (∀ t0, st.migrationStarted.lookup (table, toVersion) = some t0 →
      ¬(now - t0 < cfg.waitProcessorPeriod) →
      tsvVersionExists st table (toVersion - 1) = true →
      migrate cfg st now table toVersion isForced ops =
        GoResult.ok (forceLoadInsert st table, none) ∧
      (forceLoadInsert st table).warehouse = st.warehouse ∧
      (forceLoadInsert st table).forceLoadTables.contains table = true) ∧
    (∀ t0 w2, st.migrationStarted.lookup (table, toVersion) = some t0 →
      ¬(now - t0 < cfg.waitProcessorPeriod) →
      tsvVersionExists st table (toVersion - 1) = false →
      ApplyOperations st.warehouse table ops toVersion (migrationTimeoutMs cfg isForced) =
        GoResult.ok (w2, none) →
      migrate cfg st now table toVersion isForced ops =
        GoResult.ok
          ({ st with
             warehouse := w2,
             cache := cacheSet st.cache table toVersion }, none) ∧
      cacheGet (cacheSet st.cache table toVersion) table = some toVersion) := by
  have hmem : table ∈ st.logsTables := by simpa using hex
  refine ⟨?_, ?_, ?_, ?_, ?_⟩
  · intro ver
    by_cases h : tsvVersionExists st table ver <;> simp [isOldVersionCleared, h]
  · intro h
    simp [migrate, hmem, h]
  · intro t0 h hw
    simp [migrate, hmem, h, hw]
  · intro t0 h hw htsv
    refine ⟨by simp [migrate, hmem, h, hw, isOldVersionCleared, htsv], ?_, ?_⟩
    · by_cases hcm : table ∈ st.forceLoadTables <;> simp [forceLoadInsert, hcm]
    · by_cases hcm : table ∈ st.forceLoadTables <;> simp [forceLoadInsert, hcm]
  · intro t0 w2 h hw htsv happly
    refine ⟨?_, cacheGet_cacheSet_self st.cache table toVersion⟩
    simp [migrate, hmem, h, hw, isOldVersionCleared, htsv, happly]

/-- Witness for C2 on a concrete existing table at its first migrate
observation: the start instant is recorded and nothing else changes. -/
theorem c2_migrate_quiescence_witness :
    ((⟨[], [], [], [], ⟨[], []⟩, ["t"]⟩ : MigratorState).logsTables.contains "t" = true) ∧
      migrate ⟨10, 3, 8, 5, 7⟩ ⟨[], [], [], [], ⟨[], []⟩, ["t"]⟩ 4 "t" 2 false [] =
        GoResult.ok (⟨[(("t", 2), 4)], [], [], [], ⟨[], []⟩, ["t"]⟩, none) :=
  ⟨by decide,
    (c2_migrate_quiescence ⟨10, 3, 8, 5, 7⟩ ⟨[], [], [], [], ⟨[], []⟩, ["t"]⟩ 4 "t" 2
        false [] (by decide)).2.1 rfl⟩

/-- C1 counterexample: for a never-created table (absent from the logs schema
and from infra.table_version), the version-increment request with version 3
does not succeed — expectVersion reads the absent table as version -1, not 2,
so ApplyOperations answers an error, no version row is inserted and the cache
is untouched, contradicting the claimed success. -/
theorem c1_increment_version_counterexample :
    incrementVersion ⟨1, 3, 8, 5, 7⟩ ⟨[], [], [], [], ⟨[], []⟩, []⟩ "u" 3 =
      GoResult.ok (⟨[], [], [], [], ⟨[], []⟩, []⟩, some (expectAbsentMsg 2 "u")) ∧
    TableVersions (⟨[], []⟩ : WarehouseState) "u" = none ∧
    cacheGet ([] : List (String × Int)) "u" = none := by
  decide

/-- C1 (amended): a version-increment request for a table that exists in the
logs schema is answered with an error and changes nothing; for a
non-existing table the request succeeds exactly when the maximum version
recorded in infra.table_version equals `version - 1` (an absent table reads
as -1), in which case the `(table, version)` row is inserted, the recorded
maximum becomes `version` and the cache is set to `version`; otherwise it
responds with an error and leaves the state untouched. -/
theorem c1_increment_version_amended (cfg : MigratorConfig) (st : MigratorState)
    (table : String) (version : Int) :
    (st.logsTables.contains table = true →
      incrementVersion cfg st table version =
        GoResult.ok
          (st, some ("attempted to increment version of table that exists: " ++ table))) ∧
    (st.logsTables.contains table = false →
      ((maxVersion st.warehouse.tableVersionRows table).getD (-1) = version - 1 →
        incrementVersion cfg st table version =
          GoResult.ok
            ({ st with
               warehouse :=
                 { tableVersionRows := st.warehouse.tableVersionRows ++ [(table, version)],
                   executedDDL := st.warehouse.executedDDL ++
                     [setTimeoutStmt cfg.offpeakMigrationTimeoutMs, insertVersionStmt] },
               cache := cacheSet st.cache table version }, none) ∧
        TableVersions
            { tableVersionRows := st.warehouse.tableVersionRows ++ [(table, version)],
              executedDDL := st.warehouse.executedDDL ++
                [setTimeoutStmt cfg.offpeakMigrationTimeoutMs, insertVersionStmt] } table =
          some version ∧
        cacheGet (cacheSet st.cache table version) table = some version) ∧
      ((maxVersion st.warehouse.tableVersionRows table).getD (-1) ≠ version - 1 →
        ∃ e, incrementVersion cfg st table version = GoResult.ok (st, some e))) := by
  constructor
  · intro h
    have hmem : table ∈ st.logsTables := by simpa using h
    simp [incrementVersion, hmem]
  · intro h
    have hnm : table ∉ st.logsTables := by simpa using h
    constructor
    · intro hv
      have hev : expectVersion st.warehouse.tableVersionRows table (version - 1) = none :=
        (expectVersion_none_iff _ _ _).mpr hv
      refine ⟨?_, ?_, cacheGet_cacheSet_self st.cache table version⟩
      · simp [incrementVersion, hnm, ApplyOperations, hev, applyOpsList]
      · show maxVersion (st.warehouse.tableVersionRows ++ [(table, version)]) table =
          some version
        rw [maxVersion_append_self]
        cases hm : maxVersion st.warehouse.tableVersionRows table with
        | none => simp
        | some x =>
          have hx : x = version - 1 := by
            rw [hm] at hv
            simpa using hv
          have hmax : max x version = version := max_eq_right (by omega)
          simp [hmax]
    · intro hv
      cases he : expectVersion st.warehouse.tableVersionRows table (version - 1) with
      | none => exact absurd ((expectVersion_none_iff _ _ _).mp he) hv
      | some e =>
        refine ⟨e, ?_⟩
        simp [incrementVersion, hnm, ApplyOperations, he]

/-- Witness for C1 (amended) on the drop-reconciliation shape the endpoint
serves: the table is absent from the logs schema while infra.table_version
still records version 2, so incrementing to 3 succeeds, appends the row and
sets the cache. -/
theorem c1_increment_version_amended_witness :
    ((⟨[], [], [], [], ⟨[("u", 2)], []⟩, []⟩ : MigratorState).logsTables.contains "u" =
        false) ∧
      ((maxVersion [("u", 2)] "u").getD (-1) = 3 - 1) ∧
      (incrementVersion ⟨1, 3, 8, 5, 7⟩ ⟨[], [], [], [], ⟨[("u", 2)], []⟩, []⟩ "u" 3 =
          GoResult.ok
            (⟨[], [("u", 3)], [], [],
              ⟨[("u", 2), ("u", 3)], [setTimeoutStmt 7, insertVersionStmt]⟩, []⟩, none) ∧
        TableVersions
            ⟨[("u", 2), ("u", 3)], [setTimeoutStmt 7, insertVersionStmt]⟩ "u" = some 3 ∧
        cacheGet [("u", 3)] "u" = some 3) :=
  ⟨by decide, by decide,
    ((c1_increment_version_amended ⟨1, 3, 8, 5, 7⟩ ⟨[], [], [], [], ⟨[("u", 2)], []⟩, []⟩
        "u" 3).2 (by decide)).1 (by decide)⟩

/-- C5: ApplyOperations is one transaction that (a) first checks the recorded
maximum version equals targetVersion - 1 (absent reads as -1), answering an
error without applying anything when it fails; any error result leaves the
state untouched (rollback); on success it sets the statement timeout first,
executes the operations' DDL in list order, and inserts the
`(table, targetVersion)` row last; an operation error propagates and rolls
back; sentinel drop/cancel actions execute nothing and unknown actions are
errors. -/
theorem c5_apply_operations (s : WarehouseState) (table : String) (ops : List Operation)
    (targetVersion timeoutMs : Int) :
    ((maxVersion s.tableVersionRows table).getD (-1) ≠ targetVersion - 1 →
      ∃ e, ApplyOperations s table ops targetVersion timeoutMs = GoResult.ok (s, some e)) ∧
    (∀ s2 e, ApplyOperations s table ops targetVersion timeoutMs =
        GoResult.ok (s2, some e) → s2 = s) ∧
    (∀ L, (maxVersion s.tableVersionRows table).getD (-1) = targetVersion - 1 →
      applyOpsList ops table = GoResult.ok (Except.ok L) →
      ApplyOperations s table ops targetVersion timeoutMs =
        GoResult.ok
          ({ tableVersionRows := s.tableVersionRows ++ [(table, targetVersion)],
             executedDDL := s.executedDDL ++
               setTimeoutStmt timeoutMs :: (L ++ [insertVersionStmt]) }, none)) ∧
    (∀ e, (maxVersion s.tableVersionRows table).getD (-1) = targetVersion - 1 →
      applyOpsList ops table = GoResult.ok (Except.error e) →
      ApplyOperations s table ops targetVersion timeoutMs = GoResult.ok (s, some e)) ∧
    (∀ op rest L1 L2, applyOperation op table = GoResult.ok (Except.ok L1) →
      applyOpsList rest table = GoResult.ok (Except.ok L2) →
      applyOpsList (op :: rest) table = GoResult.ok (Except.ok (L1 ++ L2))) ∧
    (∀ nm mm,
      applyOperation ⟨Action.REQUEST_DROP_EVENT, nm, mm⟩ table =
        GoResult.ok (Except.ok []) ∧
      applyOperation ⟨Action.DROP_EVENT, nm, mm⟩ table = GoResult.ok (Except.ok []) ∧
      applyOperation ⟨Action.CANCEL_DROP_EVENT, nm, mm⟩ table =
        GoResult.ok (Except.ok []) ∧
      ∀ a, applyOperation ⟨Action.other a, nm, mm⟩ table =
        GoResult.ok (Except.error ("Unexpected operation action: " ++ a))) := by
  refine ⟨?_, ?_, ?_, ?_, ?_, ?_⟩
  · intro hv
    have hne : expectVersion s.tableVersionRows table (targetVersion - 1) ≠ none := by
      intro hc
      exact hv ((expectVersion_none_iff _ _ _).mp hc)
    cases he : expectVersion s.tableVersionRows table (targetVersion - 1) with
    | none => exact absurd he hne
    | some e => exact ⟨e, by simp [ApplyOperations, he]⟩
  · intro s2 e h
    cases he : expectVersion s.tableVersionRows table (targetVersion - 1) with
    | some e2 =>
      simp [ApplyOperations, he] at h
      exact h.1.symm
    | none =>
      cases hops : applyOpsList ops table with
      | panicked m => simp [ApplyOperations, he, hops] at h
      | ok r =>
        cases r with
        | error e2 =>
          simp [ApplyOperations, he, hops] at h
          exact h.1.symm
        | ok stmts => simp [ApplyOperations, he, hops] at h
  · intro L hv hops
    have he : expectVersion s.tableVersionRows table (targetVersion - 1) = none :=
      (expectVersion_none_iff _ _ _).mpr hv
    simp [ApplyOperations, he, hops]
  · intro e hv hops
    have he : expectVersion s.tableVersionRows table (targetVersion - 1) = none :=
      (expectVersion_none_iff _ _ _).mpr hv
    simp [ApplyOperations, he, hops]
  · intro op rest L1 L2 h1 h2
    simp [applyOpsList, h1, h2]
  · intro nm mm
    exact ⟨rfl, rfl, rfl, fun a => rfl⟩

/-- Witness for C5 on a concrete success: the table is at version 1, one
DELETE operation migrates it to version 2 with the timeout set first and the
version row inserted last. -/
theorem c5_apply_operations_witness :
    ((maxVersion [("t", 1)] "t").getD (-1) = 2 - 1) ∧
      (applyOpsList [⟨Action.DELETE, "c", []⟩] "t" =
        GoResult.ok (Except.ok
          ["ALTER TABLE " ++ QuoteIdentifier "t" ++ " DROP COLUMN " ++
            QuoteIdentifier "c" ++ " CASCADE"])) ∧
      ApplyOperations ⟨[("t", 1)], []⟩ "t" [⟨Action.DELETE, "c", []⟩] 2 9 =
        GoResult.ok
          ({ tableVersionRows := [("t", 1)] ++ [("t", 2)],
             executedDDL := [] ++ setTimeoutStmt 9 ::
               (["ALTER TABLE " ++ QuoteIdentifier "t" ++ " DROP COLUMN " ++
                  QuoteIdentifier "c" ++ " CASCADE"] ++ [insertVersionStmt]) }, none) :=
  ⟨by decide, rfl,
    (c5_apply_operations ⟨[("t", 1)], []⟩ "t" [⟨Action.DELETE, "c", []⟩] 2 9).2.2.1
      ["ALTER TABLE " ++ QuoteIdentifier "t" ++ " DROP COLUMN " ++
        QuoteIdentifier "c" ++ " CASCADE"] (by decide) rfl⟩

/-- C8 counterexample: an operation list that contains the DROP_EVENT
sentinel after a DELETE operation makes CreateTable return an error, not a
no-op success — buildNewTable validates in list order and rejects the DELETE
before ever seeing the sentinel. -/
theorem c8_create_table_counterexample :
    ((⟨Action.DROP_EVENT, "", []⟩ : Operation) ∈
        [(⟨Action.DELETE, "c", []⟩ : Operation), ⟨Action.DROP_EVENT, "", []⟩]) ∧
      CreateTable ⟨[], []⟩ "t"
          [⟨Action.DELETE, "c", []⟩, ⟨Action.DROP_EVENT, "", []⟩] 3 =
        GoResult.ok
          (⟨[], []⟩, some "newTable must be made out of action=add operations") := by
  decide

/-- C8 (amended): when the operations validate as a new table (all ADDs with
column metadata, no sentinel) and the table has no infra.table_version row,
a successful CreateTable runs the CREATE TABLE statement and inserts the
version row in the same transaction, after which TableVersions maps the
table to the version; and CreateTable is a no-op success whenever a
DROP_EVENT sentinel occurs with every operation before it a valid ADD. -/
theorem c8_create_table_amended (s : WarehouseState) (table : String)
    (ops : List Operation) (version : Int) :
    (∀ forms, buildNewTableCheck ops = BuildResult.table →
      creationForms ops = GoResult.ok forms →
      maxVersion s.tableVersionRows table = none →
      CreateTable s table ops version =
        GoResult.ok
          ({ tableVersionRows := s.tableVersionRows ++ [(table, version)],
             executedDDL := s.executedDDL ++
               ["CREATE TABLE " ++ QuoteIdentifier table ++ "(" ++
                 String.intercalate "," forms ++ ");", insertVersionStmt] }, none) ∧
      TableVersions
          { tableVersionRows := s.tableVersionRows ++ [(table, version)],
            executedDDL := s.executedDDL ++
              ["CREATE TABLE " ++ QuoteIdentifier table ++ "(" ++
                String.intercalate "," forms ++ ");", insertVersionStmt] } table =
        some version) ∧
    (∀ pre suf dropOp, dropOp.action = Action.DROP_EVENT →
      (∀ op ∈ pre, validAddOp op) →
      ops = pre ++ dropOp :: suf →
      CreateTable s table ops version = GoResult.ok (s, none)) := by
  constructor
  · intro forms hb hc hm
    constructor
    · simp [CreateTable, hb, hc]
    · show maxVersion (s.tableVersionRows ++ [(table, version)]) table = some version
      rw [maxVersion_append_self, hm]
  · intro pre suf dropOp hd hp hops
    subst hops
    have hb := buildNewTableCheck_dropEvent pre suf dropOp hd hp
    simp [CreateTable, hb]

/-- Witness for C8 (amended): creating a fresh table from one valid ADD
operation records version 0 and TableVersions reads it back. -/
theorem c8_create_table_amended_witness :
    (buildNewTableCheck [⟨Action.ADD, "c", [("column_type", "int"), ("column_options", "")]⟩] =
        BuildResult.table) ∧
      (creationForms [⟨Action.ADD, "c", [("column_type", "int"), ("column_options", "")]⟩] =
        GoResult.ok [QuoteIdentifier "c" ++ " int"]) ∧
      (maxVersion ([] : List (String × Int)) "t" = none) ∧
      (CreateTable ⟨[], []⟩ "t"
          [⟨Action.ADD, "c", [("column_type", "int"), ("column_options", "")]⟩] 0 =
        GoResult.ok
          ({ tableVersionRows := [] ++ [("t", 0)],
             executedDDL := [] ++
               ["CREATE TABLE " ++ QuoteIdentifier "t" ++ "(" ++
                 String.intercalate "," [QuoteIdentifier "c" ++ " int"] ++ ");",
                insertVersionStmt] }, none) ∧
        TableVersions
            { tableVersionRows := [] ++ [("t", 0)],
              executedDDL := [] ++
                ["CREATE TABLE " ++ QuoteIdentifier "t" ++ "(" ++
                  String.intercalate "," [QuoteIdentifier "c" ++ " int"] ++ ");",
                 insertVersionStmt] } "t" = some 0) :=
  ⟨by decide, by decide, by decide,
    (c8_create_table_amended ⟨[], []⟩ "t"
        [⟨Action.ADD, "c", [("column_type", "int"), ("column_options", "")]⟩] 0).1
      [QuoteIdentifier "c" ++ " int"] (by decide) (by decide) (by decide)⟩

end RSIngester
